import Mathlib

/-!
Shallow embedding of the library-inventory REST API in `src/main.py`.

The store (`library.db`, two tables created by SQLAlchemy's `create_all`)
is modelled as a `DB`: a list of author rows and a list of book rows.
Server-generated primary keys follow SQLite's rowid rule for an
`INTEGER PRIMARY KEY` column: the new id is `max(existing ids) + 1`.
The `unique=True` columns (`AuthorModel.name`, `BookModel.isbn`) become
unique indexes in SQLite; a violated index aborts the transaction, so the
handler ends in an untranslated store failure (`HResp.storeErr`) and the
rolled-back session leaves the database unchanged.  SQLite does not
enforce the `ForeignKey("authors.id")` declaration (foreign keys are off
by default and the app never enables them), so `update_book` can store a
dangling `author_id`; cascade deletion of an author's books is done by
the ORM relationship `cascade="all, delete"`.

Each endpoint handler becomes a function from the current `DB` (and the
request data) to a response paired with the resulting `DB`.
-/

/-- A row of the `authors` table: `id` (integer primary key) and `name`. -/
structure AuthorRec where
  id : Nat
  name : String
deriving DecidableEq, Repr

/-- A row of the `books` table. -/
structure BookRec where
  id : Nat
  title : String
  author_id : Nat
  isbn : String
  copies_available : Int
deriving DecidableEq, Repr

/-- The relational store: the two tables of `library.db`. -/
structure DB where
  authors : List AuthorRec
  books : List BookRec
deriving DecidableEq, Repr

/-- Response of a handler: `ok status body` for a 2xx JSON response,
`err status` for an `HTTPException` (404 or 400), and `storeErr` for a
failure the underlying store surfaces untranslated (e.g. a violated
unique index at commit time). -/
inductive HResp (α : Type) where
  | ok : Nat → α → HResp α
  | err : Nat → HResp α
  | storeErr : HResp α
deriving DecidableEq, Repr

/-- Maximum of a list of naturals (0 for the empty list). -/
def listMax (l : List Nat) : Nat := l.foldr Nat.max 0

/-- SQLite rowid allocation for the `authors` table: `max(id) + 1`. -/
def freshAuthorId (db : DB) : Nat := listMax (db.authors.map (fun a => a.id)) + 1

/-- SQLite rowid allocation for the `books` table: `max(id) + 1`. -/
def freshBookId (db : DB) : Nat := listMax (db.books.map (fun b => b.id)) + 1

/-- Models `db.get(AuthorModel, author_id)`: primary-key lookup. -/
def dbGetAuthor (db : DB) (i : Nat) : Option AuthorRec :=
  db.authors.find? (fun a => a.id == i)

/-- Models `db.get(BookModel, book_id)`: primary-key lookup. -/
def dbGetBook (db : DB) (i : Nat) : Option BookRec :=
  db.books.find? (fun b => b.id == i)

/-- Handler for `POST /authors/` (`create_author` in `src/main.py`): insert a row with
a fresh id; a duplicate `name` violates the unique index at commit, the
transaction rolls back and the failure is surfaced by the store. -/
def create_author (db : DB) (name : String) : HResp AuthorRec × DB :=
  if db.authors.any (fun a => a.name == name) then
    (HResp.storeErr, db)
  else
    let a : AuthorRec := ⟨freshAuthorId db, name⟩
    (HResp.ok 201 a, { db with authors := db.authors ++ [a] })

/-- Handler for `GET /authors/{author_id}` (`get_author`): 404 when the id does not
resolve, otherwise 200 with the row. -/
def get_author (db : DB) (i : Nat) : HResp AuthorRec :=
  match dbGetAuthor db i with
  | none => HResp.err 404
  | some a => HResp.ok 200 a

/-- Handler for `DELETE /authors/{author_id}` (`delete_author`): 404 when absent;
otherwise the row is deleted and the ORM cascade (`"all, delete"` on
`AuthorModel.books`) deletes every book whose `author_id` is this id. -/
def delete_author (db : DB) (i : Nat) : HResp Unit × DB :=
  match dbGetAuthor db i with
  | none => (HResp.err 404, db)
  | some _ =>
    (HResp.ok 204 (),
      { authors := db.authors.filter (fun a => !(a.id == i)),
        books := db.books.filter (fun b => !(b.author_id == i)) })

/-- The validated `BookCreate` pydantic schema: all four fields present
(`copies_available` filled with its default when the body omitted it). -/
structure BookCreate where
  title : String
  author_id : Nat
  isbn : String
  copies_available : Int
deriving DecidableEq, Repr

/-- A raw book request body, in which `copies_available` may be omitted. -/
structure BookBody where
  title : String
  author_id : Nat
  isbn : String
  copies_available : Option Int
deriving DecidableEq, Repr

/-- Pydantic validation of a book body against `BookCreate`: an omitted
`copies_available` takes the declared default `1`. -/
def parseBookCreate (b : BookBody) : BookCreate :=
  ⟨b.title, b.author_id, b.isbn, b.copies_available.getD 1⟩

/-- Handler for `POST /books/` (`create_book`): 400 when `author_id` does not resolve
to an author; otherwise insert with a fresh id, where a duplicate `isbn`
violates the unique index at commit and is surfaced by the store. -/
def create_book (db : DB) (book : BookCreate) : HResp BookRec × DB :=
  match dbGetAuthor db book.author_id with
  | none => (HResp.err 400, db)
  | some _ =>
    if db.books.any (fun b => b.isbn == book.isbn) then
      (HResp.storeErr, db)
    else
      let nb : BookRec :=
        ⟨freshBookId db, book.title, book.author_id, book.isbn, book.copies_available⟩
      (HResp.ok 201 nb, { db with books := db.books ++ [nb] })

/-- Handler for `GET /books/{book_id}` (`get_book`): 404 when the id does not
resolve, otherwise 200 with the row. -/
def get_book (db : DB) (i : Nat) : HResp BookRec :=
  match dbGetBook db i with
  | none => HResp.err 404
  | some b => HResp.ok 200 b

/-- Handler for `PUT /books/{book_id}` (`update_book`): 404 when absent; otherwise
every `BookCreate` field is written onto the row (`author_id` is NOT
re-validated).  Changing `isbn` to a value held by a different row
violates the unique index at commit and is surfaced by the store, the
transaction rolling back. -/
def update_book (db : DB) (i : Nat) (book : BookCreate) : HResp BookRec × DB :=
  match dbGetBook db i with
  | none => (HResp.err 404, db)
  | some _ =>
    if db.books.any (fun b => !(b.id == i) && b.isbn == book.isbn) then
      (HResp.storeErr, db)
    else
      let nb : BookRec := ⟨i, book.title, book.author_id, book.isbn, book.copies_available⟩
      (HResp.ok 200 nb, { db with books := db.books.map (fun b => if b.id == i then nb else b) })

/-- Handler for `DELETE /books/{book_id}` (`delete_book`): 404 when absent, otherwise
the row is deleted. -/
def delete_book (db : DB) (i : Nat) : HResp Unit × DB :=
  match dbGetBook db i with
  | none => (HResp.err 404, db)
  | some _ =>
    (HResp.ok 204 (), { db with books := db.books.filter (fun b => !(b.id == i)) })

/-- States of the store reachable from the fresh (empty) database by the
state-changing endpoints. -/
inductive Reachable : DB → Prop
  | init : Reachable ⟨[], []⟩
  | createAuthor (db : DB) (n : String) :
      Reachable db → Reachable (create_author db n).2
  | deleteAuthor (db : DB) (i : Nat) :
      Reachable db → Reachable (delete_author db i).2
  | createBook (db : DB) (bc : BookCreate) :
      Reachable db → Reachable (create_book db bc).2
  | updateBook (db : DB) (i : Nat) (bc : BookCreate) :
      Reachable db → Reachable (update_book db i bc).2
  | deleteBook (db : DB) (i : Nat) :
      Reachable db → Reachable (delete_book db i).2

/-- Referential integrity: every book's `author_id` is the id of an
existing author. -/
def refIntegrity (db : DB) : Bool :=
  db.books.all (fun b => db.authors.any (fun a => a.id == b.author_id))

/-- Uniqueness of the primary keys and of the unique-indexed columns
(`authors.id`, `authors.name`, `books.id`, `books.isbn`). -/
def UniqueKeys (db : DB) : Prop :=
  db.authors.Pairwise (fun a b => a.id ≠ b.id) ∧
  db.authors.Pairwise (fun a b => a.name ≠ b.name) ∧
  db.books.Pairwise (fun a b => a.id ≠ b.id) ∧
  db.books.Pairwise (fun a b => a.isbn ≠ b.isbn)

theorem le_listMax : ∀ {l : List Nat} {x : Nat}, x ∈ l → x ≤ listMax l := by
  intro l
  induction l with
  | nil => intro x h; cases h
  | cons y ys ih =>
    intro x h
    rcases List.mem_cons.mp h with rfl | hm
    · exact Nat.le_max_left _ _
    · exact Nat.le_trans (ih hm) (Nat.le_max_right _ _)

theorem freshAuthorId_not_mem (db : DB) : ∀ a ∈ db.authors, a.id ≠ freshAuthorId db := by
  intro a ha
  have h : a.id ≤ listMax (db.authors.map (fun x => x.id)) :=
    le_listMax (List.mem_map_of_mem (fun x => x.id) ha)
  unfold freshAuthorId
  omega

theorem freshBookId_not_mem (db : DB) : ∀ b ∈ db.books, b.id ≠ freshBookId db := by
  intro b hb
  have h : b.id ≤ listMax (db.books.map (fun x => x.id)) :=
    le_listMax (List.mem_map_of_mem (fun x => x.id) hb)
  unfold freshBookId
  omega

theorem find?_auth_append_fresh (db : DB) (n : String) :
    (db.authors ++ [(⟨freshAuthorId db, n⟩ : AuthorRec)]).find?
      (fun x => x.id == freshAuthorId db) = some ⟨freshAuthorId db, n⟩ := by
  rw [List.find?_append]
  have h1 : db.authors.find? (fun x => x.id == freshAuthorId db) = none := by
    rw [List.find?_eq_none]
    intro x hx
    simp only [beq_iff_eq]
    exact freshAuthorId_not_mem db x hx
  rw [h1, List.find?_singleton]
  simp

theorem find?_book_append_fresh (db : DB) (t : String) (a : Nat) (s : String) (c : Int) :
    (db.books ++ [(⟨freshBookId db, t, a, s, c⟩ : BookRec)]).find?
      (fun x => x.id == freshBookId db) = some ⟨freshBookId db, t, a, s, c⟩ := by
  rw [List.find?_append]
  have h1 : db.books.find? (fun x => x.id == freshBookId db) = none := by
    rw [List.find?_eq_none]
    intro x hx
    simp only [beq_iff_eq]
    exact freshBookId_not_mem db x hx
  rw [h1, List.find?_singleton]
  simp

theorem find?_map_of_fix {α : Type} (f : α → α) (p : α → Bool) (l : List α)
    (hp : ∀ a, p (f a) = p a) (hf : ∀ a, p a = true → f a = a) :
    (l.map f).find? p = l.find? p := by
  induction l with
  | nil => rfl
  | cons b bs ih =>
    rw [List.map_cons]
    cases hpb : p b with
    | true =>
      rw [List.find?_cons_of_pos _ ((hp b).trans hpb), List.find?_cons_of_pos _ hpb, hf b hpb]
    | false =>
      rw [List.find?_cons_of_neg _ (by rw [hp b, hpb]; simp),
        List.find?_cons_of_neg _ (by rw [hpb]; simp), ih]

theorem find?_map_update_self (books : List BookRec) (i : Nat) (nb : BookRec)
    (hnb : nb.id = i) (h : (books.find? (fun b => b.id == i)).isSome) :
    (books.map (fun b => if b.id == i then nb else b)).find? (fun b => b.id == i) =
      some nb := by
  induction books with
  | nil => simp [List.find?] at h
  | cons b bs ih =>
    rw [List.map_cons]
    by_cases hb : (b.id == i) = true
    · rw [if_pos hb, List.find?_cons_of_pos _ (by simp [hnb])]
    · have h1 : List.find? (fun x : BookRec => x.id == i)
          (b :: bs.map (fun y => if (y.id == i) = true then nb else y)) =
          List.find? (fun x : BookRec => x.id == i)
            (bs.map (fun y => if (y.id == i) = true then nb else y)) :=
        List.find?_cons_of_neg _ hb
      have h2 : List.find? (fun x : BookRec => x.id == i) (b :: bs) =
          List.find? (fun x : BookRec => x.id == i) bs :=
        List.find?_cons_of_neg _ hb
      rw [h2] at h
      rw [if_neg hb, h1]
      exact ih h

theorem create_book_ok (db : DB) (bc : BookCreate)
    (ha : dbGetAuthor db bc.author_id ≠ none)
    (hi : ∀ b ∈ db.books, b.isbn ≠ bc.isbn) :
    (create_book db bc).1 =
      HResp.ok 201 ⟨freshBookId db, bc.title, bc.author_id, bc.isbn, bc.copies_available⟩ ∧
    (create_book db bc).2 =
      { db with books :=
          db.books ++ [⟨freshBookId db, bc.title, bc.author_id, bc.isbn, bc.copies_available⟩] } := by
  have hany : db.books.any (fun b => b.isbn == bc.isbn) = false := by
    rw [List.any_eq_false]
    intro b hb
    simp only [beq_iff_eq]
    exact hi b hb
  unfold create_book
  cases hfind : dbGetAuthor db bc.author_id with
  | none => exact absurd hfind ha
  | some a => rw [hany]; simp

theorem update_field_id (i : Nat) (nb : BookRec) (hnb : nb.id = i) (x : BookRec) :
    (if (x.id == i) = true then nb else x).id = x.id := by
  by_cases hx : (x.id == i) = true
  · rw [if_pos hx, hnb]
    exact (beq_iff_eq.mp hx).symm
  · rw [if_neg hx]

theorem uniqueKeys_create_author (db : DB) (n : String) (h : UniqueKeys db) :
    UniqueKeys (create_author db n).2 := by
  obtain ⟨h1, h2, h3, h4⟩ := h
  by_cases hdup : db.authors.any (fun a => a.name == n) = true
  · simp only [create_author, if_pos hdup]
    exact ⟨h1, h2, h3, h4⟩
  · simp only [create_author, if_neg hdup]
    simp only [Bool.not_eq_true] at hdup
    have hdup' : ∀ a ∈ db.authors, a.name ≠ n := by
      intro a ha
      have := List.any_eq_false.mp hdup a ha
      simpa using this
    refine ⟨?_, ?_, h3, h4⟩
    · apply List.pairwise_append.mpr
      refine ⟨h1, List.pairwise_singleton _ _, ?_⟩
      intro x hx y hy
      rw [List.mem_singleton] at hy
      subst hy
      exact freshAuthorId_not_mem db x hx
    · apply List.pairwise_append.mpr
      refine ⟨h2, List.pairwise_singleton _ _, ?_⟩
      intro x hx y hy
      rw [List.mem_singleton] at hy
      subst hy
      exact hdup' x hx

theorem uniqueKeys_delete_author (db : DB) (i : Nat) (h : UniqueKeys db) :
    UniqueKeys (delete_author db i).2 := by
  obtain ⟨h1, h2, h3, h4⟩ := h
  unfold delete_author
  cases hfind : dbGetAuthor db i with
  | none => exact ⟨h1, h2, h3, h4⟩
  | some a =>
    exact ⟨List.Pairwise.sublist (List.filter_sublist _) h1,
      List.Pairwise.sublist (List.filter_sublist _) h2,
      List.Pairwise.sublist (List.filter_sublist _) h3,
      List.Pairwise.sublist (List.filter_sublist _) h4⟩

theorem uniqueKeys_create_book (db : DB) (bc : BookCreate) (h : UniqueKeys db) :
    UniqueKeys (create_book db bc).2 := by
  obtain ⟨h1, h2, h3, h4⟩ := h
  unfold create_book
  cases hfind : dbGetAuthor db bc.author_id with
  | none => exact ⟨h1, h2, h3, h4⟩
  | some a =>
    by_cases hdup : db.books.any (fun b => b.isbn == bc.isbn) = true
    · rw [if_pos hdup]
      exact ⟨h1, h2, h3, h4⟩
    · rw [if_neg hdup]
      simp only [Bool.not_eq_true] at hdup
      have hdup' : ∀ b ∈ db.books, b.isbn ≠ bc.isbn := by
        intro b hb
        have := List.any_eq_false.mp hdup b hb
        simpa using this
      dsimp only
      refine ⟨h1, h2, ?_, ?_⟩
      · apply List.pairwise_append.mpr
        refine ⟨h3, List.pairwise_singleton _ _, ?_⟩
        intro x hx y hy
        rw [List.mem_singleton] at hy
        subst hy
        exact freshBookId_not_mem db x hx
      · apply List.pairwise_append.mpr
        refine ⟨h4, List.pairwise_singleton _ _, ?_⟩
        intro x hx y hy
        rw [List.mem_singleton] at hy
        subst hy
        exact hdup' x hx

theorem uniqueKeys_update_book (db : DB) (i : Nat) (bc : BookCreate) (h : UniqueKeys db) :
    UniqueKeys (update_book db i bc).2 := by
  obtain ⟨h1, h2, h3, h4⟩ := h
  unfold update_book
  cases hfind : dbGetBook db i with
  | none => exact ⟨h1, h2, h3, h4⟩
  | some b0 =>
    by_cases hdup : db.books.any (fun b => !(b.id == i) && b.isbn == bc.isbn) = true
    · rw [if_pos hdup]
      exact ⟨h1, h2, h3, h4⟩
    · rw [if_neg hdup]
      simp only [Bool.not_eq_true] at hdup
      have hno : ∀ b ∈ db.books, b.id ≠ i → b.isbn ≠ bc.isbn := by
        intro b hb hbi hc
        have := List.any_eq_false.mp hdup b hb
        simp only [Bool.and_eq_true, Bool.not_eq_true', beq_iff_eq, beq_eq_false_iff_ne,
          not_and] at this
        exact this hbi hc
      dsimp only
      refine ⟨h1, h2, ?_, ?_⟩
      · apply List.pairwise_map.mpr
        apply List.Pairwise.imp ?_ h3
        intro a b hab
        dsimp only
        rw [update_field_id i _ rfl a, update_field_id i _ rfl b]
        exact hab
      · apply List.pairwise_map.mpr
        apply List.Pairwise.imp_of_mem ?_ (h3.and h4)
        intro a b ha hb hab
        dsimp only
        by_cases hai : (a.id == i) = true
        · rw [if_pos hai]
          by_cases hbi : (b.id == i) = true
          · exact absurd ((beq_iff_eq.mp hai).trans (beq_iff_eq.mp hbi).symm) hab.1
          · rw [if_neg hbi]
            intro hc
            exact hno b hb (by simpa using hbi) hc.symm
        · rw [if_neg hai]
          by_cases hbi : (b.id == i) = true
          · rw [if_pos hbi]
            exact hno a ha (by simpa using hai)
          · rw [if_neg hbi]
            exact hab.2

theorem uniqueKeys_delete_book (db : DB) (i : Nat) (h : UniqueKeys db) :
    UniqueKeys (delete_book db i).2 := by
  obtain ⟨h1, h2, h3, h4⟩ := h
  unfold delete_book
  cases hfind : dbGetBook db i with
  | none => exact ⟨h1, h2, h3, h4⟩
  | some b =>
    exact ⟨h1, h2, List.Pairwise.sublist (List.filter_sublist _) h3,
      List.Pairwise.sublist (List.filter_sublist _) h4⟩

theorem reachable_uniqueKeys {db : DB} (h : Reachable db) : UniqueKeys db := by
  induction h with
  | init => exact ⟨List.Pairwise.nil, List.Pairwise.nil, List.Pairwise.nil, List.Pairwise.nil⟩
  | createAuthor db n _ ih => exact uniqueKeys_create_author db n ih
  | deleteAuthor db i _ ih => exact uniqueKeys_delete_author db i ih
  | createBook db bc _ ih => exact uniqueKeys_create_book db bc ih
  | updateBook db i bc _ ih => exact uniqueKeys_update_book db i bc ih
  | deleteBook db i _ ih => exact uniqueKeys_delete_book db i ih

theorem refIntegrity_iff (db : DB) :
    refIntegrity db = true ↔ ∀ b ∈ db.books, ∃ a ∈ db.authors, a.id = b.author_id := by
  simp only [refIntegrity, List.all_eq_true, List.any_eq_true, beq_iff_eq]

example : (create_author ⟨[], []⟩ "a").1 = HResp.ok 201 ⟨1, "a"⟩ := by decide
example : (create_author ⟨[⟨1, "a"⟩], []⟩ "a").1 = HResp.storeErr := by decide
example :
    (update_book ⟨[⟨1, "a"⟩], [⟨1, "t", 1, "x", 1⟩]⟩ 1 ⟨"t", 2, "x", 1⟩).2 =
      ⟨[⟨1, "a"⟩], [⟨1, "t", 2, "x", 1⟩]⟩ := by decide
example : refIntegrity ⟨[⟨1, "a"⟩], [⟨1, "t", 2, "x", 1⟩]⟩ = false := by decide
example :
    (delete_author ⟨[⟨1, "a"⟩, ⟨2, "b"⟩], [⟨1, "t", 1, "x", 1⟩, ⟨2, "u", 2, "y", 1⟩]⟩ 1).2 =
      ⟨[⟨2, "b"⟩], [⟨2, "u", 2, "y", 1⟩]⟩ := by decide
example :
    (create_book ⟨[⟨1, "a"⟩], []⟩ (parseBookCreate ⟨"t", 1, "x", none⟩)).1 =
      HResp.ok 201 ⟨1, "t", 1, "x", 1⟩ := by decide

/-- C1: the claim that every operation preserves referential integrity of
`Book.author_id` is false on the code: the state obtained by creating
author 1, creating book 1 under it, then updating book 1 with
`author_id = 2` is reachable, yet its only book references an author
that does not exist (`update_book` never re-validates `author_id` and
SQLite does not enforce the foreign key). -/
theorem c1_counterexample :
    Reachable ⟨[⟨1, "a"⟩], [⟨1, "t", 2, "x", 1⟩]⟩ ∧
      refIntegrity ⟨[⟨1, "a"⟩], [⟨1, "t", 2, "x", 1⟩]⟩ = false := by
  constructor
  · have h : (⟨[⟨1, "a"⟩], [⟨1, "t", 2, "x", 1⟩]⟩ : DB) =
        (update_book (create_book (create_author ⟨[], []⟩ "a").2 ⟨"t", 1, "x", 1⟩).2 1
          ⟨"t", 2, "x", 1⟩).2 := by decide
    rw [h]
    exact Reachable.updateBook _ _ _ (Reachable.createBook _ _
      (Reachable.createAuthor _ _ Reachable.init))
  · decide

/-- C1 (amended): author creation and deletion and book creation and
deletion all preserve the invariant that every book's `author_id`
references an existing author; book update is excluded, since it does not
re-validate `author_id` and can break the invariant (see the
counterexample). -/
theorem c1_refIntegrity_preserved_except_update (db : DB) (h : refIntegrity db = true) :
    (∀ n, refIntegrity (create_author db n).2 = true) ∧
    (∀ i, refIntegrity (delete_author db i).2 = true) ∧
    (∀ bc, refIntegrity (create_book db bc).2 = true) ∧
    (∀ i, refIntegrity (delete_book db i).2 = true) := by
  rw [refIntegrity_iff] at h
  refine ⟨?_, ?_, ?_, ?_⟩
  · intro n
    rw [refIntegrity_iff]
    by_cases hdup : db.authors.any (fun a => a.name == n) = true
    · simp only [create_author, if_pos hdup]
      exact h
    · simp only [create_author, if_neg hdup]
      intro b hb
      obtain ⟨a0, ha0, hid⟩ := h b hb
      exact ⟨a0, List.mem_append_left _ ha0, hid⟩
  · intro i
    rw [refIntegrity_iff]
    unfold delete_author
    cases hfind : dbGetAuthor db i with
    | none => exact h
    | some a =>
      dsimp only
      intro b hb
      rw [List.mem_filter] at hb
      obtain ⟨hbmem, hbid⟩ := hb
      obtain ⟨a0, ha0, hid⟩ := h b hbmem
      refine ⟨a0, List.mem_filter.mpr ⟨ha0, ?_⟩, hid⟩
      simp only [Bool.not_eq_true'] at hbid ⊢
      rw [beq_eq_false_iff_ne] at hbid ⊢
      rw [hid]
      exact hbid
  · intro bc
    rw [refIntegrity_iff]
    unfold create_book
    cases hfind : dbGetAuthor db bc.author_id with
    | none => exact h
    | some a0 =>
      by_cases hdup : db.books.any (fun b => b.isbn == bc.isbn) = true
      · rw [if_pos hdup]
        exact h
      · rw [if_neg hdup]
        dsimp only
        intro b hb
        rw [List.mem_append] at hb
        rcases hb with hb | hb
        · obtain ⟨a1, ha1, hid⟩ := h b hb
          exact ⟨a1, ha1, hid⟩
        · rw [List.mem_singleton] at hb
          subst hb
          unfold dbGetAuthor at hfind
          refine ⟨a0, List.mem_of_find?_eq_some hfind, ?_⟩
          have := List.find?_some hfind
          simpa using this
  · intro i
    rw [refIntegrity_iff]
    unfold delete_book
    cases hfind : dbGetBook db i with
    | none => exact h
    | some b0 =>
      dsimp only
      intro b hb
      rw [List.mem_filter] at hb
      exact h b hb.1

theorem c1_witness :
    refIntegrity ⟨[⟨1, "a"⟩], [⟨1, "t", 1, "x", 1⟩]⟩ = true ∧
      refIntegrity (delete_author ⟨[⟨1, "a"⟩], [⟨1, "t", 1, "x", 1⟩]⟩ 1).2 = true :=
  ⟨by decide, (c1_refIntegrity_preserved_except_update _ (by decide)).2.1 1⟩

/-- C2: when the author id resolves, `DELETE /authors/{id}` answers 204,
the resulting store holds neither that author nor any book whose
`author_id` is that id, and every other author and book is kept
unchanged. -/
theorem c2_delete_author_cascades (db : DB) (i : Nat) (a : AuthorRec)
    (h : dbGetAuthor db i = some a) :
    (delete_author db i).1 = HResp.ok 204 () ∧
    dbGetAuthor (delete_author db i).2 i = none ∧
    (∀ b ∈ (delete_author db i).2.books, b.author_id ≠ i) ∧
    (∀ x ∈ db.authors, x.id ≠ i → x ∈ (delete_author db i).2.authors) ∧
    (∀ x ∈ (delete_author db i).2.authors, x ∈ db.authors) ∧
    (∀ b ∈ db.books, b.author_id ≠ i → b ∈ (delete_author db i).2.books) ∧
    (∀ b ∈ (delete_author db i).2.books, b ∈ db.books) := by
  unfold delete_author
  rw [h]
  dsimp only
  refine ⟨rfl, ?_, ?_, ?_, ?_, ?_, ?_⟩
  · unfold dbGetAuthor
    dsimp only
    rw [List.find?_eq_none]
    intro x hx
    rw [List.mem_filter] at hx
    have hx2 := hx.2
    simp only [Bool.not_eq_true'] at hx2
    simpa using hx2
  · intro b hb
    rw [List.mem_filter] at hb
    have hb2 := hb.2
    simpa using hb2
  · intro x hx hxi
    rw [List.mem_filter]
    exact ⟨hx, by simpa using hxi⟩
  · intro x hx
    rw [List.mem_filter] at hx
    exact hx.1
  · intro b hb hbi
    rw [List.mem_filter]
    exact ⟨hb, by simpa using hbi⟩
  · intro b hb
    rw [List.mem_filter] at hb
    exact hb.1

theorem c2_witness :
    dbGetAuthor ⟨[⟨1, "a"⟩, ⟨2, "b"⟩], [⟨1, "t", 1, "x", 1⟩, ⟨2, "u", 2, "y", 1⟩]⟩ 1 =
      some ⟨1, "a"⟩ ∧
    (delete_author ⟨[⟨1, "a"⟩, ⟨2, "b"⟩], [⟨1, "t", 1, "x", 1⟩, ⟨2, "u", 2, "y", 1⟩]⟩ 1).1 =
      HResp.ok 204 () :=
  ⟨by decide, (c2_delete_author_cascades _ 1 ⟨1, "a"⟩ (by decide)).1⟩

/-- C3: the claim fails as stated: in the store holding books 1 (isbn
"i1") and 2 (isbn "i2"), `PUT /books/1` with a full body whose isbn is
"i2" does not return 200 with the body's values; the unique index on
`isbn` makes the commit fail and the store surfaces the error. -/
theorem c3_counterexample :
    dbGetBook ⟨[⟨1, "a"⟩], [⟨1, "t1", 1, "i1", 1⟩, ⟨2, "t2", 1, "i2", 1⟩]⟩ 1 =
      some ⟨1, "t1", 1, "i1", 1⟩ ∧
    (update_book ⟨[⟨1, "a"⟩], [⟨1, "t1", 1, "i1", 1⟩, ⟨2, "t2", 1, "i2", 1⟩]⟩ 1
      ⟨"t1", 1, "i2", 5⟩).1 = HResp.storeErr ∧
    (HResp.storeErr : HResp BookRec) ≠ HResp.ok 200 ⟨1, "t1", 1, "i2", 5⟩ := by
  refine ⟨by decide, by decide, by decide⟩

/-- C3 (amended): when the book id resolves and the body's isbn is not
held by a different existing book, `PUT /books/{id}` returns 200 and the
stored book's title, author_id, isbn and copies_available equal exactly
the request body's values. -/
theorem c3_put_replaces_all_fields (db : DB) (i : Nat) (old : BookRec) (bc : BookCreate)
    (h : dbGetBook db i = some old)
    (hfresh : ∀ b ∈ db.books, b.id ≠ i → b.isbn ≠ bc.isbn) :
    (update_book db i bc).1 =
      HResp.ok 200 ⟨i, bc.title, bc.author_id, bc.isbn, bc.copies_available⟩ ∧
    dbGetBook (update_book db i bc).2 i =
      some ⟨i, bc.title, bc.author_id, bc.isbn, bc.copies_available⟩ := by
  have hany : ¬(db.books.any (fun b => !(b.id == i) && b.isbn == bc.isbn) = true) := by
    intro hx
    obtain ⟨b, hb, hpb⟩ := List.any_eq_true.mp hx
    simp only [Bool.and_eq_true, Bool.not_eq_true', beq_iff_eq, beq_eq_false_iff_ne] at hpb
    exact hfresh b hb hpb.1 hpb.2
  unfold update_book
  rw [h]
  dsimp only
  rw [if_neg hany]
  refine ⟨rfl, ?_⟩
  unfold dbGetBook
  dsimp only
  apply find?_map_update_self
  · rfl
  · unfold dbGetBook at h
    rw [h]
    rfl

theorem c3_witness :
    (update_book ⟨[⟨1, "a"⟩], [⟨1, "t", 1, "x", 1⟩]⟩ 1 ⟨"u", 2, "y", 3⟩).1 =
      HResp.ok 200 ⟨1, "u", 2, "y", 3⟩ :=
  (c3_put_replaces_all_fields ⟨[⟨1, "a"⟩], [⟨1, "t", 1, "x", 1⟩]⟩ 1 ⟨1, "t", 1, "x", 1⟩
    ⟨"u", 2, "y", 3⟩ (by decide) (by decide)).1

/-- C4: the claim fails as stated: with author 1 present and a book with
isbn "x" present, `POST /books/` with author_id 1 and isbn "x" has a
valid author_id yet does not return 201; the unique index on isbn makes
the commit fail, the store surfaces the error and nothing is created. -/
theorem c4_counterexample :
    dbGetAuthor ⟨[⟨1, "a"⟩], [⟨1, "t", 1, "x", 1⟩]⟩ 1 = some ⟨1, "a"⟩ ∧
    (create_book ⟨[⟨1, "a"⟩], [⟨1, "t", 1, "x", 1⟩]⟩ ⟨"u", 1, "x", 1⟩).1 = HResp.storeErr ∧
    (create_book ⟨[⟨1, "a"⟩], [⟨1, "t", 1, "x", 1⟩]⟩ ⟨"u", 1, "x", 1⟩).2 =
      ⟨[⟨1, "a"⟩], [⟨1, "t", 1, "x", 1⟩]⟩ := by
  refine ⟨by decide, by decide, by decide⟩

/-- C4 (amended): `POST /books/` returns 400 exactly when the body's
author_id does not resolve to an author; when it resolves and no
existing book holds the body's isbn, it returns 201 with the created
book. -/
theorem c4_create_book_status (db : DB) (bc : BookCreate) :
    ((create_book db bc).1 = HResp.err 400 ↔ dbGetAuthor db bc.author_id = none) ∧
    (dbGetAuthor db bc.author_id ≠ none → (∀ b ∈ db.books, b.isbn ≠ bc.isbn) →
      (create_book db bc).1 =
        HResp.ok 201 ⟨freshBookId db, bc.title, bc.author_id, bc.isbn, bc.copies_available⟩) := by
  constructor
  · unfold create_book
    cases hfind : dbGetAuthor db bc.author_id with
    | none => simp
    | some a =>
      dsimp only
      constructor
      · intro hx
        by_cases hdup : db.books.any (fun b => b.isbn == bc.isbn) = true
        · rw [if_pos hdup] at hx
          simp at hx
        · rw [if_neg hdup] at hx
          simp at hx
      · intro hx
        simp at hx
  · intro ha hi
    exact (create_book_ok db bc ha hi).1

theorem c4_witness :
    (create_book ⟨[⟨1, "a"⟩], []⟩ ⟨"t", 1, "x", 2⟩).1 = HResp.ok 201 ⟨1, "t", 1, "x", 2⟩ :=
  (c4_create_book_status ⟨[⟨1, "a"⟩], []⟩ ⟨"t", 1, "x", 2⟩).2 (by decide) (by decide)

/-- C5: in every reachable store the author names are pairwise distinct
and the book isbns are pairwise distinct; creating a second author with
an existing name makes the store surface its failure untranslated, and
creating a second book with an existing isbn never succeeds — when the
author_id also resolves, its failure is likewise surfaced untranslated
by the store rather than mapped to 404 or 400. -/
theorem c5_unique_names_and_isbns (db : DB) (h : Reachable db) :
    db.authors.Pairwise (fun a b => a.name ≠ b.name) ∧
    db.books.Pairwise (fun a b => a.isbn ≠ b.isbn) ∧
    (∀ n, (∃ a ∈ db.authors, a.name = n) → (create_author db n).1 = HResp.storeErr) ∧
    (∀ bc : BookCreate, (∃ b ∈ db.books, b.isbn = bc.isbn) →
      (∀ r : BookRec, (create_book db bc).1 ≠ HResp.ok 201 r) ∧
      (dbGetAuthor db bc.author_id ≠ none → (create_book db bc).1 = HResp.storeErr)) := by
  obtain ⟨hu1, hu2, hu3, hu4⟩ := reachable_uniqueKeys h
  refine ⟨hu2, hu4, ?_, ?_⟩
  · intro n hex
    have hany : db.authors.any (fun a => a.name == n) = true := by
      rw [List.any_eq_true]
      obtain ⟨a, ha, hn⟩ := hex
      exact ⟨a, ha, by simpa using hn⟩
    simp only [create_author, if_pos hany]
  · intro bc hex
    have hany : db.books.any (fun b => b.isbn == bc.isbn) = true := by
      rw [List.any_eq_true]
      obtain ⟨b, hb, hn⟩ := hex
      exact ⟨b, hb, by simpa using hn⟩
    unfold create_book
    cases hfind : dbGetAuthor db bc.author_id with
    | none =>
      refine ⟨fun r => by simp, fun hx => absurd rfl hx⟩
    | some a =>
      rw [if_pos hany]
      refine ⟨fun r => by simp, fun _ => rfl⟩

theorem c5_witness :
    (create_author (create_author ⟨[], []⟩ "a").2 "a").1 = HResp.storeErr :=
  ((c5_unique_names_and_isbns (create_author ⟨[], []⟩ "a").2
    (Reachable.createAuthor _ _ Reachable.init)).2.2.1) "a" (by decide)

/-- C6: whenever an operation fails with an `HTTPException` (404 or 400),
the store is exactly what it was before the request. -/
theorem c6_failed_requests_change_nothing (db : DB) :
    (∀ n c, (create_author db n).1 = HResp.err c → (create_author db n).2 = db) ∧
    (∀ i c, (delete_author db i).1 = HResp.err c → (delete_author db i).2 = db) ∧
    (∀ bc c, (create_book db bc).1 = HResp.err c → (create_book db bc).2 = db) ∧
    (∀ i bc c, (update_book db i bc).1 = HResp.err c → (update_book db i bc).2 = db) ∧
    (∀ i c, (delete_book db i).1 = HResp.err c → (delete_book db i).2 = db) := by
  refine ⟨?_, ?_, ?_, ?_, ?_⟩
  · intro n c hx
    by_cases hdup : db.authors.any (fun a => a.name == n) = true
    · simp only [create_author, if_pos hdup]
    · simp only [create_author, if_neg hdup] at hx
      simp at hx
  · intro i c hx
    unfold delete_author at hx ⊢
    cases hfind : dbGetAuthor db i with
    | none => rfl
    | some a =>
      rw [hfind] at hx
      simp at hx
  · intro bc c hx
    unfold create_book at hx ⊢
    cases hfind : dbGetAuthor db bc.author_id with
    | none => rfl
    | some a =>
      rw [hfind] at hx
      dsimp only at hx
      by_cases hdup : db.books.any (fun b => b.isbn == bc.isbn) = true
      · rw [if_pos hdup] at hx
        simp at hx
      · rw [if_neg hdup] at hx
        simp at hx
  · intro i bc c hx
    unfold update_book at hx ⊢
    cases hfind : dbGetBook db i with
    | none => rfl
    | some b0 =>
      rw [hfind] at hx
      dsimp only at hx
      by_cases hdup : db.books.any (fun b => !(b.id == i) && b.isbn == bc.isbn) = true
      · rw [if_pos hdup] at hx
        simp at hx
      · rw [if_neg hdup] at hx
        simp at hx
  · intro i c hx
    unfold delete_book at hx ⊢
    cases hfind : dbGetBook db i with
    | none => rfl
    | some b0 =>
      rw [hfind] at hx
      simp at hx

theorem c6_witness :
    (delete_author ⟨[], []⟩ 1).1 = HResp.err 404 ∧ (delete_author ⟨[], []⟩ 1).2 = ⟨[], []⟩ :=
  ⟨by decide, (c6_failed_requests_change_nothing ⟨[], []⟩).2.1 1 404 (by decide)⟩

/-- C7: `GET /authors/{id}`, `GET /books/{id}`, `DELETE /authors/{id}`,
`PUT /books/{id}` and `DELETE /books/{id}` answer 404 exactly when the
path id does not resolve to a record of the respective type. -/
theorem c7_notFound_iff_absent (db : DB) (i : Nat) :
    (get_author db i = HResp.err 404 ↔ dbGetAuthor db i = none) ∧
    (get_book db i = HResp.err 404 ↔ dbGetBook db i = none) ∧
    ((delete_author db i).1 = HResp.err 404 ↔ dbGetAuthor db i = none) ∧
    (∀ bc : BookCreate, ((update_book db i bc).1 = HResp.err 404 ↔ dbGetBook db i = none)) ∧
    ((delete_book db i).1 = HResp.err 404 ↔ dbGetBook db i = none) := by
  refine ⟨?_, ?_, ?_, ?_, ?_⟩
  · unfold get_author
    cases hfind : dbGetAuthor db i with
    | none => simp
    | some a => simp
  · unfold get_book
    cases hfind : dbGetBook db i with
    | none => simp
    | some b => simp
  · unfold delete_author
    cases hfind : dbGetAuthor db i with
    | none => simp
    | some a => simp
  · intro bc
    unfold update_book
    cases hfind : dbGetBook db i with
    | none => simp
    | some b0 =>
      dsimp only
      constructor
      · intro hx
        by_cases hdup : db.books.any (fun b => !(b.id == i) && b.isbn == bc.isbn) = true
        · rw [if_pos hdup] at hx
          simp at hx
        · rw [if_neg hdup] at hx
          simp at hx
      · intro hx
        simp at hx
  · unfold delete_book
    cases hfind : dbGetBook db i with
    | none => simp
    | some b0 => simp

theorem c7_witness :
    get_author ⟨[], []⟩ 7 = HResp.err 404 ↔ dbGetAuthor ⟨[], []⟩ 7 = none :=
  (c7_notFound_iff_absent ⟨[], []⟩ 7).1

/-- C8: the claim fails as stated: with author 1 valid but an existing
book already holding isbn "x", the `POST /books/` request that omits
copies_available does not create any book; the unique isbn index makes
the commit fail and the store is unchanged. -/
theorem c8_counterexample :
    (⟨"u", 1, "x", none⟩ : BookBody).copies_available = none ∧
    dbGetAuthor ⟨[⟨1, "a"⟩], [⟨9, "t", 1, "x", 9⟩]⟩ 1 = some ⟨1, "a"⟩ ∧
    (create_book ⟨[⟨1, "a"⟩], [⟨9, "t", 1, "x", 9⟩]⟩ (parseBookCreate ⟨"u", 1, "x", none⟩)).1 =
      HResp.storeErr ∧
    (create_book ⟨[⟨1, "a"⟩], [⟨9, "t", 1, "x", 9⟩]⟩ (parseBookCreate ⟨"u", 1, "x", none⟩)).2 =
      ⟨[⟨1, "a"⟩], [⟨9, "t", 1, "x", 9⟩]⟩ := by
  refine ⟨by decide, by decide, by decide, by decide⟩

/-- C8 (amended): when the body's author_id resolves and its isbn is not
already taken, a `POST /books/` request that omits copies_available
creates a book whose stored copies_available equals 1 (the pydantic
default on `BookCreate`). -/
theorem c8_default_copies_available (db : DB) (body : BookBody)
    (hc : body.copies_available = none)
    (ha : dbGetAuthor db body.author_id ≠ none)
    (hi : ∀ b ∈ db.books, b.isbn ≠ body.isbn) :
    (create_book db (parseBookCreate body)).1 =
      HResp.ok 201 ⟨freshBookId db, body.title, body.author_id, body.isbn, 1⟩ ∧
    dbGetBook (create_book db (parseBookCreate body)).2 (freshBookId db) =
      some ⟨freshBookId db, body.title, body.author_id, body.isbn, 1⟩ := by
  have hpc : parseBookCreate body = ⟨body.title, body.author_id, body.isbn, 1⟩ := by
    unfold parseBookCreate
    rw [hc]
    rfl
  rw [hpc]
  have hmain := create_book_ok db ⟨body.title, body.author_id, body.isbn, 1⟩ ha hi
  refine ⟨hmain.1, ?_⟩
  rw [hmain.2]
  unfold dbGetBook
  dsimp only
  exact find?_book_append_fresh db body.title body.author_id body.isbn 1

theorem c8_witness :
    (create_book ⟨[⟨1, "a"⟩], []⟩ (parseBookCreate ⟨"t", 1, "x", none⟩)).1 =
      HResp.ok 201 ⟨1, "t", 1, "x", 1⟩ :=
  (c8_default_copies_available ⟨[⟨1, "a"⟩], []⟩ ⟨"t", 1, "x", none⟩
    (by decide) (by decide) (by decide)).1

/-- C9: the claim fails as stated: in a store already holding an author
named "a", `POST /authors/` with name "a" does not return 201; the
unique index on name makes the commit fail, the store surfaces the
error untranslated and nothing is created. -/
theorem c9_counterexample :
    (create_author ⟨[⟨1, "a"⟩], []⟩ "a").1 = HResp.storeErr ∧
    (create_author ⟨[⟨1, "a"⟩], []⟩ "a").2 = ⟨[⟨1, "a"⟩], []⟩ := by
  refine ⟨by decide, by decide⟩

/-- C9 (amended): when no existing author already has name `n`,
`POST /authors/` with name `n` returns 201 with a server-generated id,
and `GET /authors/{id}` on that id then returns 200 with an author whose
name is `n`. -/
theorem c9_create_then_get_author (db : DB) (n : String)
    (h : ∀ a ∈ db.authors, a.name ≠ n) :
    (create_author db n).1 = HResp.ok 201 ⟨freshAuthorId db, n⟩ ∧
    get_author (create_author db n).2 (freshAuthorId db) =
      HResp.ok 200 ⟨freshAuthorId db, n⟩ := by
  have hany : ¬(db.authors.any (fun a => a.name == n) = true) := by
    intro hx
    obtain ⟨a, ha, hpa⟩ := List.any_eq_true.mp hx
    exact h a ha (by simpa using hpa)
  constructor
  · simp only [create_author, if_neg hany]
  · simp only [create_author, if_neg hany]
    unfold get_author dbGetAuthor
    dsimp only
    rw [find?_auth_append_fresh db n]

theorem c9_witness :
    (create_author ⟨[⟨1, "b"⟩], []⟩ "a").1 = HResp.ok 201 ⟨2, "a"⟩ ∧
    get_author (create_author ⟨[⟨1, "b"⟩], []⟩ "a").2 2 = HResp.ok 200 ⟨2, "a"⟩ :=
  c9_create_then_get_author ⟨[⟨1, "b"⟩], []⟩ "a" (by decide)

/-- C10: `PUT /books/{id}` on an existing book never changes the book's
id (the body has no id field): whatever the outcome, the store still
holds a book at the path id and that book's id is the path id, the
authors table is untouched, and every other book is unchanged. -/
theorem c10_put_keeps_id_and_frame (db : DB) (i : Nat) (old : BookRec) (bc : BookCreate)
    (h : dbGetBook db i = some old) :
    (update_book db i bc).2.authors = db.authors ∧
    (dbGetBook (update_book db i bc).2 i).isSome = true ∧
    (∀ b, dbGetBook (update_book db i bc).2 i = some b → b.id = i) ∧
    (∀ j, j ≠ i → dbGetBook (update_book db i bc).2 j = dbGetBook db j) := by
  have h' : List.find? (fun b : BookRec => b.id == i) db.books = some old := h
  have hid : old.id = i := by simpa using List.find?_some h'
  unfold update_book
  rw [h]
  dsimp only
  by_cases hdup : db.books.any (fun b => !(b.id == i) && b.isbn == bc.isbn) = true
  · rw [if_pos hdup]
    dsimp only
    refine ⟨rfl, ?_, ?_, ?_⟩
    · rw [h]
      rfl
    · intro b hb
      rw [h] at hb
      have hob := Option.some.inj hb
      rw [← hob]
      exact hid
    · intro j hj
      rfl
  · rw [if_neg hdup]
    dsimp only
    have hsome : (db.books.find? (fun b : BookRec => b.id == i)).isSome = true := by
      rw [h']
      rfl
    refine ⟨rfl, ?_, ?_, ?_⟩
    · unfold dbGetBook
      dsimp only
      rw [find?_map_update_self db.books i
        ⟨i, bc.title, bc.author_id, bc.isbn, bc.copies_available⟩ rfl hsome]
      rfl
    · intro b hb
      unfold dbGetBook at hb
      dsimp only at hb
      rw [find?_map_update_self db.books i
        ⟨i, bc.title, bc.author_id, bc.isbn, bc.copies_available⟩ rfl hsome] at hb
      have hob := Option.some.inj hb
      rw [← hob]
    · intro j hj
      unfold dbGetBook
      dsimp only
      apply find?_map_of_fix
      · intro a
        by_cases hai : (a.id == i) = true
        · rw [if_pos hai]
          dsimp only
          rw [beq_iff_eq.mp hai]
        · rw [if_neg hai]
      · intro a hpa
        have haj := beq_iff_eq.mp hpa
        rw [if_neg]
        intro hc
        exact hj (haj.symm.trans (beq_iff_eq.mp hc))

theorem c10_witness :
    (update_book ⟨[⟨1, "a"⟩], [⟨1, "t", 1, "x", 1⟩]⟩ 1 ⟨"u", 5, "y", 2⟩).2.authors =
      [⟨1, "a"⟩] ∧
    dbGetBook (update_book ⟨[⟨1, "a"⟩], [⟨1, "t", 1, "x", 1⟩]⟩ 1 ⟨"u", 5, "y", 2⟩).2 2 =
      dbGetBook ⟨[⟨1, "a"⟩], [⟨1, "t", 1, "x", 1⟩]⟩ 2 :=
  ⟨(c10_put_keeps_id_and_frame ⟨[⟨1, "a"⟩], [⟨1, "t", 1, "x", 1⟩]⟩ 1 ⟨1, "t", 1, "x", 1⟩
      ⟨"u", 5, "y", 2⟩ (by decide)).1,
   (c10_put_keeps_id_and_frame ⟨[⟨1, "a"⟩], [⟨1, "t", 1, "x", 1⟩]⟩ 1 ⟨1, "t", 1, "x", 1⟩
      ⟨"u", 5, "y", 2⟩ (by decide)).2.2.2 2 (by decide)⟩
